import Mathlib

/-!
Verification of the data-getta aggregation/UI layer.

The visible source of the repository is the TypeScript UI: the output-table
schemas (`src/unnamed/part_001`), the Supabase fetch queries of the pages,
and the display components.  The Python aggregation engine itself is not in
the visible tree, so the grouping fold, the pitch classifier and the
derived-metric calculator are modelled from the specification (each such
definition carries a `Modelled from the spec:` doc comment).  Everything
else is translated directly from the TypeScript source.
-/

/-! ### Output table schemas, from `src/unnamed/part_001`.

TypeScript `number | null` fields are embedded as `Option ℚ`; the key
components (`string`, `number` year) as `String` and `Nat`. -/

/-- `TeamsTable` from `src/unnamed/part_001`. -/
structure TeamsTable where
  Year : Nat
  TeamName : String
  TrackmanAbbreviation : String
  Conference : String
  Mascot : String
deriving DecidableEq

/-- `PlayersTable` from `src/unnamed/part_001`. -/
structure PlayersTable where
  Name : String
  PitcherId : Option String
  BatterId : Option String
  TeamTrackmanAbbreviation : String
  Year : Nat
deriving DecidableEq

/-- `BatterStatsTable` from `src/unnamed/part_001` (lines 17-42). -/
structure BatterStatsTable where
  Batter : String
  BatterTeam : String
  Year : Nat
  hits : Option ℚ
  at_bats : Option ℚ
  strikes : Option ℚ
  walks : Option ℚ
  strikeouts : Option ℚ
  homeruns : Option ℚ
  extra_base_hits : Option ℚ
  plate_appearances : Option ℚ
  hit_by_pitch : Option ℚ
  sacrifice : Option ℚ
  total_bases : Option ℚ
  batting_average : Option ℚ
  on_base_percentage : Option ℚ
  slugging_percentage : Option ℚ
  onbase_plus_slugging : Option ℚ
  isolated_power : Option ℚ
  k_percentage : Option ℚ
  base_on_ball_percentage : Option ℚ
  chase_percentage : Option ℚ
  in_zone_whiff_percentage : Option ℚ
  games : Option ℚ
deriving DecidableEq

/-- `PitcherStatsTable` from `src/unnamed/part_001` (lines 44-64). -/
structure PitcherStatsTable where
  Pitcher : String
  PitcherTeam : String
  Year : Nat
  total_strikeouts_pitcher : Option ℚ
  total_walks_pitcher : Option ℚ
  total_out_of_zone_pitches : Option ℚ
  total_in_zone_pitches : Option ℚ
  misses_in_zone : Option ℚ
  swings_in_zone : Option ℚ
  total_num_chases : Option ℚ
  pitches : Option ℚ
  games_started : Option ℚ
  total_innings_pitched : Option ℚ
  total_batters_faced : Option ℚ
  k_percentage : Option ℚ
  base_on_ball_percentage : Option ℚ
  in_zone_whiff_percentage : Option ℚ
  chase_percentage : Option ℚ
  games : Option ℚ
deriving DecidableEq

/-- `PitchCountsTable` from `src/unnamed/part_001` (lines 66-81). -/
structure PitchCountsTable where
  Pitcher : String
  PitcherTeam : String
  Year : Nat
  total_pitches : Option ℚ
  curveball_count : Option ℚ
  fourseam_count : Option ℚ
  sinker_count : Option ℚ
  slider_count : Option ℚ
  twoseam_count : Option ℚ
  changeup_count : Option ℚ
  cutter_count : Option ℚ
  splitter_count : Option ℚ
  other_count : Option ℚ
  games : Option ℚ
deriving DecidableEq

/-- The non-key field names of `BatterStatsTable`, in the declaration
order of `src/unnamed/part_001` lines 21-41 (everything after the entity
key `Batter`, `BatterTeam`, `Year`). -/
def batterStatsNonKeyFields : List String :=
  [ "hits", "at_bats", "strikes", "walks", "strikeouts", "homeruns",
    "extra_base_hits", "plate_appearances", "hit_by_pitch", "sacrifice",
    "total_bases", "batting_average", "on_base_percentage",
    "slugging_percentage", "onbase_plus_slugging", "isolated_power",
    "k_percentage", "base_on_ball_percentage", "chase_percentage",
    "in_zone_whiff_percentage", "games" ]

/-- The per-pitch-type counter field names of `PitchCountsTable`, in the
declaration order of `src/unnamed/part_001` lines 71-79 (every field other
than the entity key, `total_pitches` and `games`). -/
def pitchCountCounterFields : List String :=
  [ "curveball_count", "fourseam_count", "sinker_count", "slider_count",
    "twoseam_count", "changeup_count", "cutter_count", "splitter_count",
    "other_count" ]

/-! ### Supabase fetch queries of the UI pages.

Each page builds a filter over one table.  The `.eq` chains are embedded
as list filters; the `.order` clauses are presentational and do not change
which rows a query selects, so they are not part of the embedding. -/

/-- `fetchBatters` from `src/ui/src/pages/BatterTab.tsx` (lines 14-33):
`from(BatterStats).select(all).eq(BatterTeam, team)`.
No `Year` restriction appears in the source query. -/
def fetchBatters (rows : List BatterStatsTable) (team : String) : List BatterStatsTable :=
  rows.filter (fun r => decide (r.BatterTeam = team))

/-- `fetchPitchers` from `src/unnamed/part_008` (PitcherTab, lines 17-51),
first query: `from(PitcherStats).select(all).eq(PitcherTeam, team)
.eq(Year, 2025)`. -/
def fetchPitchers (rows : List PitcherStatsTable) (team : String) : List PitcherStatsTable :=
  rows.filter (fun r => decide (r.PitcherTeam = team) && decide (r.Year = 2025))

/-- `fetchPitchers` from `src/unnamed/part_008`, second query:
`from(PitchCounts).select(all).eq(PitcherTeam, team).eq(Year, 2025)`. -/
def fetchPitchCounts (rows : List PitchCountsTable) (team : String) : List PitchCountsTable :=
  rows.filter (fun r => decide (r.PitcherTeam = team) && decide (r.Year = 2025))

/-- `fetchData` from `src/unnamed/part_010` (ConferencePage, lines 16-62),
the query part: `from(Teams).select(all).eq(Year, 2025)`. -/
def fetchTeams (rows : List TeamsTable) : List TeamsTable :=
  rows.filter (fun r => decide (r.Year = 2025))

/-- `fetchRoster` from `src/ui/src/pages/RosterTab.tsx`:
`from(Players).select(all).eq(TeamTrackmanAbbreviation, team)`.
No `Year` restriction appears in the source query. -/
def fetchRoster (rows : List PlayersTable) (team : String) : List PlayersTable :=
  rows.filter (fun r => decide (r.TeamTrackmanAbbreviation = team))

/-- `fetchTeam` from `src/unnamed/part_011` (TeamPage, lines 17-43):
`from(Teams).select(TeamName, TrackmanAbbreviation, Conference)
.eq(TrackmanAbbreviation, team).eq(Year, 2025).single()`.  The column
projection and the single-row unwrapping are presentational; the filter is
what selects rows. -/
def fetchTeamPage (rows : List TeamsTable) (team : String) : List TeamsTable :=
  rows.filter (fun r =>
    decide (r.TrackmanAbbreviation = team) && decide (r.Year = 2025))

/-- `fetchPlayer` from `src/unnamed/part_009` (PlayerPage, lines 16-43):
`from(Players).select(all).eq(TeamTrackmanAbbreviation, team)
.eq(Name, name).eq(Year, 2025).maybeSingle()`. -/
def fetchPlayerPage (rows : List PlayersTable) (team name : String) :
    List PlayersTable :=
  rows.filter (fun r =>
    decide (r.TeamTrackmanAbbreviation = team) && decide (r.Name = name) &&
      decide (r.Year = 2025))

/-! ### Entity keys of the output tables (§3 AggregateRow key). -/

/-- The entity key of a batter-season row: `(Batter, BatterTeam, Year)`. -/
def batterKeyOf (r : BatterStatsTable) : String × String × Nat :=
  (r.Batter, r.BatterTeam, r.Year)

/-- The entity key of a pitcher-season row: `(Pitcher, PitcherTeam, Year)`. -/
def pitcherKeyOf (r : PitcherStatsTable) : String × String × Nat :=
  (r.Pitcher, r.PitcherTeam, r.Year)

/-- The entity key of a pitch-type-count row: `(Pitcher, PitcherTeam, Year)`. -/
def pitchCountKeyOf (r : PitchCountsTable) : String × String × Nat :=
  (r.Pitcher, r.PitcherTeam, r.Year)

/-! ### Concrete demonstration tables. -/

/-- A batter-season row with the given key and no recorded statistics. -/
def blankBatterStats (name team : String) (year : Nat) : BatterStatsTable :=
  ⟨name, team, year, none, none, none, none, none, none, none, none, none,
   none, none, none, none, none, none, none, none, none, none, none, none⟩

/-- A pitcher-season row with the given key and no recorded statistics. -/
def blankPitcherStats (name team : String) (year : Nat) : PitcherStatsTable :=
  ⟨name, team, year, none, none, none, none, none, none, none, none, none,
   none, none, none, none, none, none, none⟩

/-- A pitch-type-count row with the given key and no recorded counts. -/
def blankPitchCounts (name team : String) (year : Nat) : PitchCountsTable :=
  ⟨name, team, year, none, none, none, none, none, none, none, none, none,
   none, none⟩

/-- A materialized batter table holding the same batter for two seasons of
the same team: its entity keys are distinct, yet the batter names repeat. -/
def demoBatterRows : List BatterStatsTable :=
  [blankBatterStats ("Doe, John") ("AUB_TIG") 2024,
   blankBatterStats ("Doe, John") ("AUB_TIG") 2025]

/-- A materialized pitcher table spanning two seasons and two teams. -/
def demoPitcherRows : List PitcherStatsTable :=
  [blankPitcherStats ("Smith, Alex") ("AUB_TIG") 2024,
   blankPitcherStats ("Smith, Alex") ("AUB_TIG") 2025,
   blankPitcherStats ("Lee, Sam") ("AUB_TIG") 2025,
   blankPitcherStats ("Lee, Sam") ("LSU_TIG") 2025]

/-- A materialized pitch-type-count table spanning two seasons. -/
def demoPitchCountRows : List PitchCountsTable :=
  [blankPitchCounts ("Smith, Alex") ("AUB_TIG") 2024,
   blankPitchCounts ("Smith, Alex") ("AUB_TIG") 2025,
   blankPitchCounts ("Lee, Sam") ("AUB_TIG") 2025]

/-- A roster row for the 2024 season. -/
def demoPlayer2024 : PlayersTable :=
  ⟨"Doe, John", none, some ("B123"), "AUB_TIG", 2024⟩

/-- The 2025 roster row of the same player. -/
def demoPlayer2025 : PlayersTable :=
  ⟨"Doe, John", none, some ("B123"), "AUB_TIG", 2025⟩

/-- A materialized roster table holding the same player for two seasons of
the same team. -/
def demoPlayerRows : List PlayersTable :=
  [demoPlayer2024, demoPlayer2025]

/-- The Auburn 2025 row of the concrete team table below. -/
def demoAuburn : TeamsTable :=
  ⟨2025, "Auburn", "AUB_TIG", "SEC", "Tigers"⟩

/-! ### Pitch classifier (§4.2).

The Python processing layer is not in the visible tree; the classifier is
modelled from the specification. -/

/-- Modelled from the spec: the fixed closed pitch-type enumeration of
§4.2, in the counter order of the `PitchCountsTable` schema. -/
inductive PitchBucket where
  | curveball
  | fourseam
  | sinker
  | slider
  | twoseam
  | changeup
  | cutter
  | splitter
  | other
deriving DecidableEq

/-- The nine pitch-type buckets, in the counter order of the
`PitchCountsTable` schema. -/
def allPitchBuckets : List PitchBucket :=
  [PitchBucket.curveball, PitchBucket.fourseam, PitchBucket.sinker,
   PitchBucket.slider, PitchBucket.twoseam, PitchBucket.changeup,
   PitchBucket.cutter, PitchBucket.splitter, PitchBucket.other]

/-- Modelled from the spec: the recognized raw pitch-type labels and the
buckets they map onto (§4.2 names the buckets; the raw TrackMan label
spellings are not in the visible tree, so the bucket names stand in for
them). -/
def pitchLabelMap : List (String × PitchBucket) :=
  [("four-seam", PitchBucket.fourseam), ("two-seam", PitchBucket.twoseam),
   ("sinker", PitchBucket.sinker), ("slider", PitchBucket.slider),
   ("curveball", PitchBucket.curveball), ("changeup", PitchBucket.changeup),
   ("cutter", PitchBucket.cutter), ("splitter", PitchBucket.splitter)]

/-- Modelled from the spec: map a raw pitch-type label onto the fixed
closed enumeration; unrecognized labels map to `other` rather than
failing (§4.2). -/
def classifyPitchType (label : String) : PitchBucket :=
  match pitchLabelMap.find? (fun p => decide (p.1 = label)) with
  | some p => p.2
  | none => PitchBucket.other

/-- The `PitchCountsTable` counter column holding each bucket. -/
def bucketCounterField : PitchBucket → String
  | PitchBucket.curveball => "curveball_count"
  | PitchBucket.fourseam => "fourseam_count"
  | PitchBucket.sinker => "sinker_count"
  | PitchBucket.slider => "slider_count"
  | PitchBucket.twoseam => "twoseam_count"
  | PitchBucket.changeup => "changeup_count"
  | PitchBucket.cutter => "cutter_count"
  | PitchBucket.splitter => "splitter_count"
  | PitchBucket.other => "other_count"

/-! ### Grouping engine (§4.3), modelled from the spec. -/

/-- Modelled from the spec: the plate-appearance-ending outcome carried by
the terminal pitch of a plate appearance (§3, §4.3); `hit` carries the
total bases credited. -/
inductive PAOutcome where
  | walk
  | hitByPitch
  | sacrifice
  | strikeout
  | out
  | hit (bases : Nat)
deriving DecidableEq

/-- Modelled from the spec: a `ClassifiedPitch` (§3) — a pitch event
augmented with the derived classifier facts.  `chased` is derived below as
`swung && !in_zone` (§4.2).  `outcome` is `some o` exactly on the terminal
pitch of a plate appearance. -/
structure ClassifiedPitch where
  batter : String
  batterTeam : String
  pitcher : String
  pitcherTeam : String
  year : Nat
  gameId : Nat
  pitchLabel : String
  in_zone : Bool
  swung : Bool
  whiff : Bool
  outcome : Option PAOutcome
deriving DecidableEq

/-- Modelled from the spec: the `EntityAccumulator` counter bag (§3).
`games` is tracked as the set of distinct game identifiers, materialized
to a count at the end (§4.3). -/
structure EntityAcc where
  pitches : Nat
  in_zone_pitches : Nat
  out_of_zone_pitches : Nat
  in_zone_swings : Nat
  in_zone_misses : Nat
  out_of_zone_swings : Nat
  plate_appearances : Nat
  at_bats : Nat
  hits : Nat
  walks : Nat
  strikeouts : Nat
  hit_by_pitch : Nat
  sacrifice : Nat
  homeruns : Nat
  extra_base_hits : Nat
  total_bases : Nat
  games : Finset Nat
deriving DecidableEq

/-- The empty accumulator. -/
def zeroAcc : EntityAcc :=
  ⟨0, 0, 0, 0, 0, 0, 0, 0, 0, 0, 0, 0, 0, 0, 0, 0, ∅⟩

/-- Modelled from the spec: merging partial accumulators by per-counter
addition; the distinct-game sets merge by union (§5). -/
def mergeAcc (a b : EntityAcc) : EntityAcc :=
  ⟨a.pitches + b.pitches,
   a.in_zone_pitches + b.in_zone_pitches,
   a.out_of_zone_pitches + b.out_of_zone_pitches,
   a.in_zone_swings + b.in_zone_swings,
   a.in_zone_misses + b.in_zone_misses,
   a.out_of_zone_swings + b.out_of_zone_swings,
   a.plate_appearances + b.plate_appearances,
   a.at_bats + b.at_bats,
   a.hits + b.hits,
   a.walks + b.walks,
   a.strikeouts + b.strikeouts,
   a.hit_by_pitch + b.hit_by_pitch,
   a.sacrifice + b.sacrifice,
   a.homeruns + b.homeruns,
   a.extra_base_hits + b.extra_base_hits,
   a.total_bases + b.total_bases,
   a.games ∪ b.games⟩

/-- Modelled from the spec: the additive contribution of one classified
pitch to its entity accumulator, per the counting rules of §4.3.  A
strikeout, an out and a hit are the at-bat-credited outcomes; a walk, a
hit-by-pitch and a sacrifice end the plate appearance without an at-bat. -/
def eventDelta (e : ClassifiedPitch) : EntityAcc where
  pitches := 1
  in_zone_pitches := if e.in_zone then 1 else 0
  out_of_zone_pitches := if e.in_zone then 0 else 1
  in_zone_swings := if e.in_zone && e.swung then 1 else 0
  in_zone_misses := if e.in_zone && e.whiff then 1 else 0
  out_of_zone_swings := if e.swung && !e.in_zone then 1 else 0
  plate_appearances := if e.outcome.isSome then 1 else 0
  at_bats :=
    match e.outcome with
    | some PAOutcome.strikeout => 1
    | some PAOutcome.out => 1
    | some (PAOutcome.hit _) => 1
    | _ => 0
  hits := match e.outcome with | some (PAOutcome.hit _) => 1 | _ => 0
  walks := match e.outcome with | some PAOutcome.walk => 1 | _ => 0
  strikeouts := match e.outcome with | some PAOutcome.strikeout => 1 | _ => 0
  hit_by_pitch := match e.outcome with | some PAOutcome.hitByPitch => 1 | _ => 0
  sacrifice := match e.outcome with | some PAOutcome.sacrifice => 1 | _ => 0
  homeruns :=
    match e.outcome with
    | some (PAOutcome.hit b) => if b = 4 then 1 else 0
    | _ => 0
  extra_base_hits :=
    match e.outcome with
    | some (PAOutcome.hit b) => if 2 ≤ b then 1 else 0
    | _ => 0
  total_bases := match e.outcome with | some (PAOutcome.hit b) => b | _ => 0
  games := {e.gameId}

/-- One step of the grouping fold. -/
def accStep (a : EntityAcc) (e : ClassifiedPitch) : EntityAcc :=
  mergeAcc a (eventDelta e)

/-- Modelled from the spec: fold a classified-pitch sequence into one
accumulator (§4.3). -/
def accOf (l : List ClassifiedPitch) : EntityAcc :=
  l.foldl accStep zeroAcc

/-- Modelled from the spec: the keyed totals of the grouping engine — the
accumulator of one entity is the fold of exactly the pitches carrying that
entity key (§4.3). -/
def entityTotals {K : Type} [DecidableEq K] (keyOf : ClassifiedPitch → K)
    (l : List ClassifiedPitch) (k : K) : EntityAcc :=
  accOf (l.filter (fun e => decide (keyOf e = k)))

/-- The batter-family grouping key `(batter, batter-team, season)`. -/
def batterPitchKey (e : ClassifiedPitch) : String × String × Nat :=
  (e.batter, e.batterTeam, e.year)

/-! ### Derived metric calculator (§4.4), modelled from the spec. -/

/-- Modelled from the spec: rate statistics are rounded to a fixed decimal
precision; three decimal places, matching the worked example of §8
(`0.364` for `4/11`).  Ties round up. -/
def round3 (q : ℚ) : ℚ :=
  ((⌊q * 1000 + 1 / 2⌋ : ℤ) : ℚ) / 1000

/-- Modelled from the spec: a rate statistic with an explicit
zero-denominator policy — when the denominator counter is zero the result
is null (`none`), never zero, never an error (§4.4). -/
def rateStat (num den : Nat) : Option ℚ :=
  if den = 0 then none else some (round3 ((num : ℚ) / (den : ℚ)))

/-- Modelled from the spec: assemble a batter-season output row from a
frozen accumulator, per the formulas of §4.4.  `onbase_plus_slugging` and
`isolated_power` propagate null from their operands.  The spec does not
enumerate a `strikes` counter in the accumulator, so that output field is
left null here; `games_started` and innings are pitcher-only. -/
def mkBatterRow (name team : String) (year : Nat) (a : EntityAcc) :
    BatterStatsTable :=
  let avg := rateStat a.hits a.at_bats
  let obp := rateStat (a.hits + a.walks + a.hit_by_pitch)
    (a.at_bats + a.walks + a.hit_by_pitch + a.sacrifice)
  let slug := rateStat a.total_bases a.at_bats
  { Batter := name
    BatterTeam := team
    Year := year
    hits := some (a.hits : ℚ)
    at_bats := some (a.at_bats : ℚ)
    strikes := none
    walks := some (a.walks : ℚ)
    strikeouts := some (a.strikeouts : ℚ)
    homeruns := some (a.homeruns : ℚ)
    extra_base_hits := some (a.extra_base_hits : ℚ)
    plate_appearances := some (a.plate_appearances : ℚ)
    hit_by_pitch := some (a.hit_by_pitch : ℚ)
    sacrifice := some (a.sacrifice : ℚ)
    total_bases := some (a.total_bases : ℚ)
    batting_average := avg
    on_base_percentage := obp
    slugging_percentage := slug
    onbase_plus_slugging :=
      match obp, slug with
      | some o, some s => some (o + s)
      | _, _ => none
    isolated_power :=
      match slug, avg with
      | some s, some v => some (s - v)
      | _, _ => none
    k_percentage := rateStat a.strikeouts a.plate_appearances
    base_on_ball_percentage := rateStat a.walks a.plate_appearances
    chase_percentage := rateStat a.out_of_zone_swings a.out_of_zone_pitches
    in_zone_whiff_percentage := rateStat a.in_zone_misses a.in_zone_swings
    games := some (a.games.card : ℚ) }

/-- Modelled from the spec: assemble a pitcher-season output row from a
frozen accumulator; the pitcher formulas are the structural mirror of the
batter ones, with batters faced as the plate-appearance count against
(§4.4).  `games_started` and `total_innings_pitched` derive from
game/sequence structure the spec leaves open (§4.3), so they are left
null here; no claim concerns them. -/
def mkPitcherRow (name team : String) (year : Nat) (a : EntityAcc) :
    PitcherStatsTable where
  Pitcher := name
  PitcherTeam := team
  Year := year
  total_strikeouts_pitcher := some (a.strikeouts : ℚ)
  total_walks_pitcher := some (a.walks : ℚ)
  total_out_of_zone_pitches := some (a.out_of_zone_pitches : ℚ)
  total_in_zone_pitches := some (a.in_zone_pitches : ℚ)
  misses_in_zone := some (a.in_zone_misses : ℚ)
  swings_in_zone := some (a.in_zone_swings : ℚ)
  total_num_chases := some (a.out_of_zone_swings : ℚ)
  pitches := some (a.pitches : ℚ)
  games_started := none
  total_innings_pitched := none
  total_batters_faced := some (a.plate_appearances : ℚ)
  k_percentage := rateStat a.strikeouts a.plate_appearances
  base_on_ball_percentage := rateStat a.walks a.plate_appearances
  in_zone_whiff_percentage := rateStat a.in_zone_misses a.in_zone_swings
  chase_percentage := rateStat a.out_of_zone_swings a.out_of_zone_pitches
  games := some (a.games.card : ℚ)

/-- The worked example of §8: 10 at-bats, 3 hits (one home run worth 4
total bases, two singles), 1 walk, 11 plate appearances, 6 total bases. -/
def exampleBatterAcc : EntityAcc :=
  { zeroAcc with
    hits := 3
    at_bats := 10
    walks := 1
    plate_appearances := 11
    total_bases := 6
    homeruns := 1
    extra_base_hits := 1 }

/-! ### Batter grid display layer, from
`src/ui/src/components/team/BatterTable.tsx`. -/

/-- The `valueGetter` shared by the four percentage columns of the batter
grid (`BatterTable.tsx` lines 122-179):
`if (!value) return value; else return Number((value * 100).toFixed(0))`.
JavaScript `!value` is true for `null`, `undefined` and `0` (embedded as
`none` and `some 0`); `toFixed(0)` rounds to the nearest integer, a tie
picking the larger integer, which is `⌊x + 1/2⌋`. -/
def pctValueGetter (value : Option ℚ) : Option ℚ :=
  match value with
  | none => none
  | some x => if x = 0 then some x else some ((⌊x * 100 + 1 / 2⌋ : ℤ) : ℚ)

/-- The four batter-grid columns carrying the percentage `valueGetter`, in
the column order of `BatterTable.tsx`. -/
def batterPctFields : List String :=
  ["chase_percentage", "in_zone_whiff_percentage", "k_percentage",
   "base_on_ball_percentage"]

/-! ### Conference grouping, from `src/unnamed/part_010`
(`ConferencePage.fetchData`, lines 32-50). -/

/-- `ConferenceGroupTeam` from `src/unnamed/part_002`. -/
structure ConferenceGroupTeam where
  TeamName : String
  TrackmanAbbreviation : String
deriving DecidableEq

/-- `ConferenceGroup` from `src/unnamed/part_002`. -/
structure ConferenceGroup where
  ConferenceName : String
  teams : List ConferenceGroupTeam
deriving DecidableEq

/-- The projection pushed by the reduce callback:
`{ TeamName: team.TeamName, TrackmanAbbreviation: team.TrackmanAbbreviation }`. -/
def toGroupTeam (t : TeamsTable) : ConferenceGroupTeam :=
  ⟨t.TeamName, t.TrackmanAbbreviation⟩

/-- One step of the `reduce` of `fetchData`: if the accumulator record
already has a group for the conference of the team, push the team onto it;
otherwise add a new group at the end (JavaScript object insertion order is
the order of `Object.entries`). -/
def addTeamToGroups (acc : List (String × List ConferenceGroupTeam))
    (t : TeamsTable) : List (String × List ConferenceGroupTeam) :=
  if acc.any (fun p => decide (p.1 = t.Conference)) then
    acc.map (fun p =>
      if p.1 = t.Conference then (p.1, p.2 ++ [toGroupTeam t]) else p)
  else acc ++ [(t.Conference, [toGroupTeam t])]

/-- The `groupedData` reduce of `fetchData`, as the list of
`Object.entries` of the accumulated record. -/
def groupedData (ts : List TeamsTable) : List (String × List ConferenceGroupTeam) :=
  ts.foldl addTeamToGroups []

/-- The sort comparator of `fetchData`:
`(a, b) => b.teams.length - a.teams.length`, i.e. descending team count. -/
def byTeamCountDesc (a b : ConferenceGroup) : Bool :=
  decide (b.teams.length ≤ a.teams.length)

/-- The `conferenceArray` of `fetchData`: map the grouped record to
`ConferenceGroup`s and sort by descending team count. -/
def conferenceArray (ts : List TeamsTable) : List ConferenceGroup :=
  ((groupedData ts).map (fun p => ConferenceGroup.mk p.1 p.2)).mergeSort
    byTeamCountDesc

/-- The invariant of the grouping reduce: after folding the teams of
`done`, the accumulator has pairwise-distinct conference keys, one key per
conference occurring in `done`, and each group holds exactly the teams of
its conference in input order. -/
def GroupsInv (done : List TeamsTable)
    (acc : List (String × List ConferenceGroupTeam)) : Prop :=
  (acc.map Prod.fst).Nodup ∧
  (∀ c : String, c ∈ acc.map Prod.fst ↔ c ∈ done.map TeamsTable.Conference) ∧
  ∀ p ∈ acc, p.2 = (done.filter (fun t => decide (t.Conference = p.1))).map toGroupTeam

/-- A concrete classified pitch: an in-zone swing, no terminal outcome. -/
def demoPitchA : ClassifiedPitch :=
  ⟨"Doe, John", "AUB_TIG", "Smith, Alex", "LSU_TIG", 2025, 1, "four-seam",
   true, true, false, none⟩

/-- A concrete classified pitch: an out-of-zone swing with contact,
ending the plate appearance with a hit worth 4 total bases (a home
run). -/
def demoPitchB : ClassifiedPitch :=
  ⟨"Doe, John", "AUB_TIG", "Smith, Alex", "LSU_TIG", 2025, 1, "slider",
   false, true, false, some (PAOutcome.hit 4)⟩

/-- A concrete team table for the C9 witness. -/
def demoTeams : List TeamsTable :=
  [⟨2025, "Auburn", "AUB_TIG", "SEC", "Tigers"⟩,
   ⟨2025, "Clemson", "CLE_TIG", "ACC", "Tigers"⟩,
   ⟨2025, "Alabama", "ALA_CT", "SEC", "Crimson Tide"⟩]

/-- C5 counterexample: the batter-season row does not have 17 non-key
fields; the schema `BatterStatsTable` declares 21 of them. -/
theorem claimC5_counterexample :
    batterStatsNonKeyFields.length = 21 ∧ ¬ batterStatsNonKeyFields.length = 17 := by
  decide

/-- C5 (amended): the batter-season row consists of the entity key
(`Batter`, `BatterTeam`, `Year`) plus exactly 21 distinct counting/derived
fields. -/
theorem claimC5_amended :
    batterStatsNonKeyFields.length = 21 ∧ batterStatsNonKeyFields.Nodup := by
  decide

/-- If the `(name, team, year)` keys of a list of rows are pairwise
distinct and every row of the list carries the same team and year, then
the names alone are already pairwise distinct. -/
theorem nodup_names_of_fixed_key {α : Type} (nm tm : α → String) (yr : α → Nat)
    (t : String) (y : Nat) (l : List α)
    (hk : (l.map (fun r => (nm r, tm r, yr r))).Nodup)
    (hfix : ∀ r ∈ l, tm r = t ∧ yr r = y) :
    (l.map nm).Nodup := by
  have hmap : l.map nm = (l.map (fun r => (nm r, tm r, yr r))).map Prod.fst := by
    simp [List.map_map, Function.comp]
  rw [hmap]
  refine List.Nodup.map_on ?_ hk
  intro x hx z hz hfst
  rcases List.mem_map.mp hx with ⟨r, hr, rfl⟩
  rcases List.mem_map.mp hz with ⟨s, hs, rfl⟩
  obtain ⟨hrt, hry⟩ := hfix r hr
  obtain ⟨hst, hsy⟩ := hfix s hs
  simp only [Prod.mk.injEq] at hfst ⊢
  exact ⟨hfst, hrt.trans hst.symm, hry.trans hsy.symm⟩

/-- C4 counterexample: a batter table whose entity keys are pairwise
distinct, but whose rows, fetched by team alone (`fetchBatters` has no
`Year` filter), repeat a batter name — so identifying fetched rows by the
player-name component alone does collide. -/
theorem claimC4_counterexample :
    (demoBatterRows.map batterKeyOf).Nodup ∧
    ¬ ((fetchBatters demoBatterRows ("AUB_TIG")).map BatterStatsTable.Batter).Nodup := by
  decide

/-- C4 (amended): entity keys are unique per materialized table, and for
the pitcher and pitch-count fetches — which fix both the team and the
season `Year = 2025` — the fetched rows never collide on the player-name
component alone; the batter fetch fixes only the team, so batter rows of
different seasons can collide on the name (see the counterexample). -/
theorem claimC4_amended (prows : List PitcherStatsTable)
    (crows : List PitchCountsTable) (t : String) :
    ((prows.map pitcherKeyOf).Nodup →
      ((fetchPitchers prows t).map PitcherStatsTable.Pitcher).Nodup) ∧
    ((crows.map pitchCountKeyOf).Nodup →
      ((fetchPitchCounts crows t).map PitchCountsTable.Pitcher).Nodup) := by
  constructor
  · intro hk
    have hsub : (fetchPitchers prows t).Sublist prows := List.filter_sublist _
    have hknd : ((fetchPitchers prows t).map pitcherKeyOf).Nodup :=
      hk.sublist (hsub.map pitcherKeyOf)
    refine nodup_names_of_fixed_key PitcherStatsTable.Pitcher
      PitcherStatsTable.PitcherTeam PitcherStatsTable.Year t 2025 _ hknd ?_
    intro r hr
    simp only [fetchPitchers, List.mem_filter, Bool.and_eq_true,
      decide_eq_true_eq] at hr
    exact hr.2
  · intro hk
    have hsub : (fetchPitchCounts crows t).Sublist crows := List.filter_sublist _
    have hknd : ((fetchPitchCounts crows t).map pitchCountKeyOf).Nodup :=
      hk.sublist (hsub.map pitchCountKeyOf)
    refine nodup_names_of_fixed_key PitchCountsTable.Pitcher
      PitchCountsTable.PitcherTeam PitchCountsTable.Year t 2025 _ hknd ?_
    intro r hr
    simp only [fetchPitchCounts, List.mem_filter, Bool.and_eq_true,
      decide_eq_true_eq] at hr
    exact hr.2

/-- C4 witness: the amended theorem applied to the concrete demonstration
tables, whose keys are pairwise distinct. -/
theorem claimC4_witness :
    ((fetchPitchers demoPitcherRows ("AUB_TIG")).map PitcherStatsTable.Pitcher).Nodup ∧
    ((fetchPitchCounts demoPitchCountRows ("AUB_TIG")).map PitchCountsTable.Pitcher).Nodup := by
  have h := claimC4_amended demoPitcherRows demoPitchCountRows ("AUB_TIG")
  exact ⟨h.1 (by decide), h.2 (by decide)⟩

/-- C6 counterexample: the batter and roster queries return rows of two
different seasons in one call (neither has a season restriction), and the
pitcher query returns only `Year = 2025` rows although no season argument
exists to pass — the season is a hidden constant, not an explicit
parameter. -/
theorem claimC6_counterexample :
    ((fetchBatters demoBatterRows ("AUB_TIG")).map BatterStatsTable.Year
        = [2024, 2025] ∧ (2024 : Nat) ≠ 2025) ∧
    (fetchRoster demoPlayerRows ("AUB_TIG")).map PlayersTable.Year
        = [2024, 2025] ∧
    (fetchPitchers demoPitcherRows ("AUB_TIG")).map PitcherStatsTable.Year
        = [2025, 2025] := by
  decide

/-- C6 (amended): none of the seven UI queries (pitcher stats, pitch
counts, conference teams, team page, player page, batter stats, roster)
takes the season as a parameter; the first five restrict to the hardcoded
season 2025, while the batter and roster queries apply no season
restriction at all — their output is constrained only by the team (and,
for the player page, name) arguments. -/
theorem claimC6_amended (prows : List PitcherStatsTable)
    (crows : List PitchCountsTable) (trows : List TeamsTable)
    (brows : List BatterStatsTable) (rrows : List PlayersTable)
    (t n : String) :
    (∀ r ∈ fetchPitchers prows t, r.PitcherTeam = t ∧ r.Year = 2025) ∧
    (∀ r ∈ fetchPitchCounts crows t, r.PitcherTeam = t ∧ r.Year = 2025) ∧
    (∀ r ∈ fetchTeams trows, r.Year = 2025) ∧
    (∀ r ∈ fetchTeamPage trows t, r.TrackmanAbbreviation = t ∧ r.Year = 2025) ∧
    (∀ r ∈ fetchPlayerPage rrows t n,
      r.TeamTrackmanAbbreviation = t ∧ r.Name = n ∧ r.Year = 2025) ∧
    (∀ r ∈ fetchBatters brows t, r.BatterTeam = t) ∧
    (∀ r ∈ fetchRoster rrows t, r.TeamTrackmanAbbreviation = t) := by
  refine ⟨?_, ?_, ?_, ?_, ?_, ?_, ?_⟩ <;> intro r hr
  · simp only [fetchPitchers, List.mem_filter, Bool.and_eq_true,
      decide_eq_true_eq] at hr
    exact hr.2
  · simp only [fetchPitchCounts, List.mem_filter, Bool.and_eq_true,
      decide_eq_true_eq] at hr
    exact hr.2
  · simp only [fetchTeams, List.mem_filter, decide_eq_true_eq] at hr
    exact hr.2
  · simp only [fetchTeamPage, List.mem_filter, Bool.and_eq_true,
      decide_eq_true_eq] at hr
    exact hr.2
  · simp only [fetchPlayerPage, List.mem_filter, Bool.and_eq_true,
      decide_eq_true_eq] at hr
    exact ⟨hr.2.1.1, hr.2.1.2, hr.2.2⟩
  · simp only [fetchBatters, List.mem_filter, decide_eq_true_eq] at hr
    exact hr.2
  · simp only [fetchRoster, List.mem_filter, decide_eq_true_eq] at hr
    exact hr.2

/-- C6 witness: the amended theorem applied to the concrete demonstration
tables, one conclusion per query, every membership hypothesis discharged
by evaluation. -/
theorem claimC6_witness :
    (blankPitcherStats ("Smith, Alex") ("AUB_TIG") 2025).Year = 2025 ∧
    (blankPitchCounts ("Smith, Alex") ("AUB_TIG") 2025).Year = 2025 ∧
    demoAuburn.Year = 2025 ∧
    demoAuburn.TrackmanAbbreviation = ("AUB_TIG") ∧
    demoPlayer2025.Year = 2025 ∧
    (blankBatterStats ("Doe, John") ("AUB_TIG") 2024).BatterTeam = ("AUB_TIG") ∧
    demoPlayer2024.TeamTrackmanAbbreviation = ("AUB_TIG") := by
  have h := claimC6_amended demoPitcherRows demoPitchCountRows demoTeams
    demoBatterRows demoPlayerRows ("AUB_TIG") ("Doe, John")
  exact ⟨(h.1 _ (by decide)).2, (h.2.1 _ (by decide)).2,
    h.2.2.1 _ (by decide), (h.2.2.2.1 _ (by decide)).1,
    (h.2.2.2.2.1 _ (by decide)).2.2, h.2.2.2.2.2.1 _ (by decide),
    h.2.2.2.2.2.2 _ (by decide)⟩

/-- C1: for every entity accumulator, each rate statistic whose
denominator counter is zero is null in the output row — if `at_bats = 0`
then `batting_average`, `slugging_percentage` and `isolated_power` are
null; if `plate_appearances` (batters faced, on the pitcher side) is zero
then `k_percentage` and `base_on_ball_percentage` are null; if
`out_of_zone_pitches = 0` then `chase_percentage` is null; if
`in_zone_swings = 0` then `in_zone_whiff_percentage` is null — and the
output row types hold every rate statistic in a nullable (`Option`)
field. -/
theorem claimC1 (a : EntityAcc) (n t pn pt : String) (y : Nat) :
    (a.at_bats = 0 →
      (mkBatterRow n t y a).batting_average = none ∧
      (mkBatterRow n t y a).slugging_percentage = none ∧
      (mkBatterRow n t y a).isolated_power = none) ∧
    (a.plate_appearances = 0 →
      (mkBatterRow n t y a).k_percentage = none ∧
      (mkBatterRow n t y a).base_on_ball_percentage = none) ∧
    (a.out_of_zone_pitches = 0 →
      (mkBatterRow n t y a).chase_percentage = none) ∧
    (a.in_zone_swings = 0 →
      (mkBatterRow n t y a).in_zone_whiff_percentage = none) ∧
    (a.plate_appearances = 0 →
      (mkPitcherRow pn pt y a).k_percentage = none ∧
      (mkPitcherRow pn pt y a).base_on_ball_percentage = none) ∧
    (a.out_of_zone_pitches = 0 →
      (mkPitcherRow pn pt y a).chase_percentage = none) ∧
    (a.in_zone_swings = 0 →
      (mkPitcherRow pn pt y a).in_zone_whiff_percentage = none) := by
  refine ⟨?_, ?_, ?_, ?_, ?_, ?_, ?_⟩ <;> intro h <;>
    simp [mkBatterRow, mkPitcherRow, rateStat, h]

/-- C1 witness: the empty accumulator has every denominator zero, so every
listed rate statistic of its batter and pitcher rows is null. -/
theorem claimC1_witness :
    (mkBatterRow ("Doe, John") ("AUB_TIG") 2025 zeroAcc).batting_average = none ∧
    (mkBatterRow ("Doe, John") ("AUB_TIG") 2025 zeroAcc).slugging_percentage = none ∧
    (mkBatterRow ("Doe, John") ("AUB_TIG") 2025 zeroAcc).isolated_power = none ∧
    (mkBatterRow ("Doe, John") ("AUB_TIG") 2025 zeroAcc).k_percentage = none ∧
    (mkBatterRow ("Doe, John") ("AUB_TIG") 2025 zeroAcc).base_on_ball_percentage = none ∧
    (mkBatterRow ("Doe, John") ("AUB_TIG") 2025 zeroAcc).chase_percentage = none ∧
    (mkBatterRow ("Doe, John") ("AUB_TIG") 2025 zeroAcc).in_zone_whiff_percentage = none ∧
    (mkPitcherRow ("Smith, Alex") ("AUB_TIG") 2025 zeroAcc).k_percentage = none ∧
    (mkPitcherRow ("Smith, Alex") ("AUB_TIG") 2025 zeroAcc).base_on_ball_percentage = none ∧
    (mkPitcherRow ("Smith, Alex") ("AUB_TIG") 2025 zeroAcc).chase_percentage = none ∧
    (mkPitcherRow ("Smith, Alex") ("AUB_TIG") 2025 zeroAcc).in_zone_whiff_percentage = none := by
  obtain ⟨h1, h2, h3, h4, h5, h6, h7⟩ :=
    claimC1 zeroAcc ("Doe, John") ("AUB_TIG") ("Smith, Alex") ("AUB_TIG") 2025
  exact ⟨(h1 rfl).1, (h1 rfl).2.1, (h1 rfl).2.2, (h2 rfl).1, (h2 rfl).2,
    h3 rfl, h4 rfl, (h5 rfl).1, (h5 rfl).2, h6 rfl, h7 rfl⟩

/-- C3: on the worked example accumulator (3 hits, 10 at-bats, 1 walk,
0 hit-by-pitch, 0 sacrifices, 6 total bases, 11 plate appearances) the
derived metric calculator returns `batting_average = 0.300`,
`slugging_percentage = 0.600`, `on_base_percentage = 0.364` (rounded from
`4/11`), `onbase_plus_slugging = 0.964` and `isolated_power = 0.300`,
following the formulas of §4.4. -/
theorem claimC3 :
    (mkBatterRow ("Doe, John") ("AUB_TIG") 2025 exampleBatterAcc).batting_average
        = some (300 / 1000) ∧
    (mkBatterRow ("Doe, John") ("AUB_TIG") 2025 exampleBatterAcc).slugging_percentage
        = some (600 / 1000) ∧
    (mkBatterRow ("Doe, John") ("AUB_TIG") 2025 exampleBatterAcc).on_base_percentage
        = some (364 / 1000) ∧
    (mkBatterRow ("Doe, John") ("AUB_TIG") 2025 exampleBatterAcc).onbase_plus_slugging
        = some (964 / 1000) ∧
    (mkBatterRow ("Doe, John") ("AUB_TIG") 2025 exampleBatterAcc).isolated_power
        = some (300 / 1000) ∧
    (mkBatterRow ("Doe, John") ("AUB_TIG") 2025 exampleBatterAcc).plate_appearances
        = some 11 ∧
    (mkBatterRow ("Doe, John") ("AUB_TIG") 2025 exampleBatterAcc).total_bases
        = some 6 := by
  norm_num [mkBatterRow, exampleBatterAcc, zeroAcc, rateStat, round3]

/-- C7: the classifier is total onto the fixed closed nine-element
pitch-type enumeration, an unrecognized raw label yields the `other`
bucket rather than an error, and the pitch-type-count row carries exactly
one counter column per bucket of that enumeration. -/
theorem claimC7 :
    (∀ label : String,
      (∀ p ∈ pitchLabelMap, p.1 ≠ label) →
        classifyPitchType label = PitchBucket.other) ∧
    (∀ b : PitchBucket, b ∈ allPitchBuckets) ∧
    allPitchBuckets.Nodup ∧
    allPitchBuckets.length = 9 ∧
    allPitchBuckets.map bucketCounterField = pitchCountCounterFields := by
  refine ⟨?_, ?_, by decide, by decide, by decide⟩
  · intro label h
    have hnone : pitchLabelMap.find? (fun p => decide (p.1 = label)) = none :=
      List.find?_eq_none.mpr (fun p hp => by simpa using h p hp)
    simp [classifyPitchType, hnone]
  · intro b
    cases b <;> decide

/-- C7 witness: a raw label outside the recognized list classifies to the
`other` bucket. -/
theorem claimC7_witness :
    classifyPitchType ("knuckleball") = PitchBucket.other :=
  claimC7.1 ("knuckleball") (by decide)

/-- C10: the percentage `valueGetter` of the batter grid returns its input
unchanged when the stored value is null (`none`) or exactly `0`, and
otherwise returns the stored fraction multiplied by 100 and rounded to the
nearest integer (within one half); the file lists the four columns
carrying this getter. -/
theorem claimC10 :
    pctValueGetter none = none ∧
    (∀ x : ℚ, x = 0 → pctValueGetter (some x) = some x) ∧
    (∀ x : ℚ, x ≠ 0 →
      pctValueGetter (some x) = some ((⌊x * 100 + 1 / 2⌋ : ℤ) : ℚ) ∧
      |((⌊x * 100 + 1 / 2⌋ : ℤ) : ℚ) - x * 100| ≤ 1 / 2) ∧
    batterPctFields.length = 4 := by
  refine ⟨rfl, ?_, ?_, by decide⟩
  · intro x hx
    simp [pctValueGetter, hx]
  · intro x hx
    refine ⟨by simp [pctValueGetter, hx], ?_⟩
    rw [abs_le]
    constructor
    · have h2 := Int.lt_floor_add_one (x * 100 + 1 / 2)
      linarith
    · have h1 := Int.floor_le (x * 100 + 1 / 2)
      linarith

/-- C10 witness: a stored rate of `1/4` renders as `25`, and a stored rate
of exactly `0` passes through unscaled. -/
theorem claimC10_witness :
    pctValueGetter (some ((1 : ℚ) / 4)) = some 25 ∧
    pctValueGetter (some (0 : ℚ)) = some 0 := by
  constructor
  · have h := (claimC10.2.2.1 ((1 : ℚ) / 4) (by norm_num)).1
    rw [h]
    norm_num
  · exact claimC10.2.1 0 rfl

/-- Merging with the empty accumulator on the left is the identity. -/
theorem mergeAcc_zero_left (a : EntityAcc) : mergeAcc zeroAcc a = a := by
  cases a
  simp [mergeAcc, zeroAcc]

/-- Merging with the empty accumulator on the right is the identity. -/
theorem mergeAcc_zero_right (a : EntityAcc) : mergeAcc a zeroAcc = a := by
  cases a
  simp [mergeAcc, zeroAcc]

/-- Per-counter merging is associative. -/
theorem mergeAcc_assoc (a b c : EntityAcc) :
    mergeAcc (mergeAcc a b) c = mergeAcc a (mergeAcc b c) := by
  simp [mergeAcc, Nat.add_assoc, Finset.union_assoc]

/-- Per-counter merging is commutative. -/
theorem mergeAcc_comm (a b : EntityAcc) : mergeAcc a b = mergeAcc b a := by
  simp [mergeAcc, Nat.add_comm, Finset.union_comm]

/-- Folding from any start accumulator merges the start with the fold from
the empty accumulator. -/
theorem foldl_accStep (l : List ClassifiedPitch) :
    ∀ a : EntityAcc, l.foldl accStep a = mergeAcc a (accOf l) := by
  induction l with
  | nil =>
    intro a
    simp [accOf, mergeAcc_zero_right]
  | cons e l ih =>
    intro a
    have hl : accOf (e :: l) = mergeAcc (accStep zeroAcc e) (accOf l) := by
      show List.foldl accStep zeroAcc (e :: l) = _
      rw [List.foldl_cons, ih (accStep zeroAcc e)]
    rw [List.foldl_cons, ih (accStep a e), hl, accStep, accStep,
      mergeAcc_zero_left, mergeAcc_assoc]

/-- Unfolding one event off the front of the fold. -/
theorem accOf_cons (e : ClassifiedPitch) (l : List ClassifiedPitch) :
    accOf (e :: l) = mergeAcc (eventDelta e) (accOf l) := by
  show List.foldl accStep zeroAcc (e :: l) = _
  rw [List.foldl_cons, foldl_accStep l (accStep zeroAcc e), accStep,
    mergeAcc_zero_left]

/-- The fold of a concatenation is the merge of the folds. -/
theorem accOf_append (l₁ l₂ : List ClassifiedPitch) :
    accOf (l₁ ++ l₂) = mergeAcc (accOf l₁) (accOf l₂) := by
  show List.foldl accStep zeroAcc (l₁ ++ l₂) = _
  rw [List.foldl_append, foldl_accStep l₂]
  rfl

/-- The fold is invariant under permutation of the event sequence. -/
theorem accOf_perm {l l' : List ClassifiedPitch} (h : l.Perm l') :
    accOf l = accOf l' := by
  induction h with
  | nil => rfl
  | cons e _ ih => rw [accOf_cons, accOf_cons, ih]
  | swap x y l =>
    rw [accOf_cons, accOf_cons, accOf_cons, accOf_cons, ← mergeAcc_assoc,
      ← mergeAcc_assoc, mergeAcc_comm (eventDelta y) (eventDelta x)]
  | trans _ _ ih₁ ih₂ => rw [ih₁, ih₂]

/-- C2: the grouping fold is order independent — permuting the input event
sequence leaves every keyed accumulator total unchanged — and folding a
partition of the events separately then merging the partial accumulators
per counter equals folding the whole sequence. -/
theorem claimC2 {K : Type} [DecidableEq K] (keyOf : ClassifiedPitch → K)
    (l l' l₁ l₂ : List ClassifiedPitch) (k : K) :
    (l.Perm l' → entityTotals keyOf l k = entityTotals keyOf l' k) ∧
    entityTotals keyOf (l₁ ++ l₂) k =
      mergeAcc (entityTotals keyOf l₁ k) (entityTotals keyOf l₂ k) := by
  constructor
  · intro h
    exact accOf_perm (h.filter (fun e => decide (keyOf e = k)))
  · show accOf ((l₁ ++ l₂).filter (fun e => decide (keyOf e = k))) = _
    rw [List.filter_append]
    exact accOf_append _ _

/-- C2 witness: swapping the two concrete demonstration pitches leaves the
batter totals unchanged. -/
theorem claimC2_witness :
    entityTotals batterPitchKey [demoPitchA, demoPitchB]
        (("Doe, John"), ("AUB_TIG"), 2025) =
      entityTotals batterPitchKey [demoPitchB, demoPitchA]
        (("Doe, John"), ("AUB_TIG"), 2025) :=
  (claimC2 batterPitchKey [demoPitchA, demoPitchB] [demoPitchB, demoPitchA]
    [] [] (("Doe, John"), ("AUB_TIG"), 2025)).1
    (List.Perm.swap demoPitchB demoPitchA [])

/-- C8: for every batter accumulator produced by a run of the grouping
fold, `plate_appearances = at_bats + walks + hit_by_pitch + sacrifice` —
the per-event credit rules make the two sides grow in lockstep. -/
theorem claimC8 (l : List ClassifiedPitch) (k : String × String × Nat) :
    (entityTotals batterPitchKey l k).plate_appearances =
      (entityTotals batterPitchKey l k).at_bats +
      (entityTotals batterPitchKey l k).walks +
      (entityTotals batterPitchKey l k).hit_by_pitch +
      (entityTotals batterPitchKey l k).sacrifice := by
  have key : ∀ m : List ClassifiedPitch,
      (accOf m).plate_appearances =
        (accOf m).at_bats + (accOf m).walks + (accOf m).hit_by_pitch +
        (accOf m).sacrifice := by
    intro m
    induction m with
    | nil => rfl
    | cons e tl ih =>
      have hdelta : (eventDelta e).plate_appearances =
          (eventDelta e).at_bats + (eventDelta e).walks +
          (eventDelta e).hit_by_pitch + (eventDelta e).sacrifice := by
        rcases e with ⟨_, _, _, _, _, _, _, _, _, _, o⟩
        rcases o with _ | o
        · rfl
        · cases o <;> rfl
      rw [accOf_cons]
      simp only [mergeAcc]
      omega
  exact key _

/-- One reduce step preserves the conference-grouping invariant. -/
theorem groupsInv_step (done : List TeamsTable)
    (acc : List (String × List ConferenceGroupTeam)) (t : TeamsTable)
    (h : GroupsInv done acc) : GroupsInv (done ++ [t]) (addTeamToGroups acc t) := by
  obtain ⟨hnd, hkeys, hgrp⟩ := h
  by_cases hmem : acc.any (fun p => decide (p.1 = t.Conference)) = true
  · have hconf : t.Conference ∈ acc.map Prod.fst := by
      rcases List.any_eq_true.mp hmem with ⟨p, hp, hpt⟩
      have hp1 : p.1 = t.Conference := of_decide_eq_true hpt
      exact hp1 ▸ List.mem_map_of_mem Prod.fst hp
    rw [addTeamToGroups, if_pos hmem]
    have hfst : (acc.map (fun p =>
        if p.1 = t.Conference then (p.1, p.2 ++ [toGroupTeam t]) else p)).map
          Prod.fst = acc.map Prod.fst := by
      rw [List.map_map]
      refine List.map_congr_left ?_
      intro p _
      by_cases hp : p.1 = t.Conference <;> simp [hp, Function.comp]
    refine ⟨?_, ?_, ?_⟩
    · rw [hfst]
      exact hnd
    · intro c
      rw [hfst, List.map_append]
      constructor
      · intro hc
        exact List.mem_append_left _ ((hkeys c).mp hc)
      · intro hc
        rcases List.mem_append.mp hc with hc | hc
        · exact (hkeys c).mpr hc
        · have hc2 : c = t.Conference := by simpa using hc
          exact hc2 ▸ hconf
    · intro q hq
      rcases List.mem_map.mp hq with ⟨p, hp, rfl⟩
      by_cases hpc : p.1 = t.Conference
      · rw [if_pos hpc]
        show p.2 ++ [toGroupTeam t] =
          ((done ++ [t]).filter
            (fun u => decide (u.Conference = p.1))).map toGroupTeam
        have ht : [t].filter (fun u => decide (u.Conference = p.1)) = [t] := by
          simp [List.filter_cons, hpc]
        rw [List.filter_append, ht, List.map_append, hgrp p hp]
        rfl
      · rw [if_neg hpc]
        show p.2 =
          ((done ++ [t]).filter
            (fun u => decide (u.Conference = p.1))).map toGroupTeam
        have ht : [t].filter (fun u => decide (u.Conference = p.1)) = [] := by
          simp [List.filter_cons]
          exact fun h2 => hpc h2.symm
        rw [List.filter_append, ht, List.append_nil]
        exact hgrp p hp
  · have hanyf : acc.any (fun p => decide (p.1 = t.Conference)) = false := by
      revert hmem
      cases acc.any (fun p => decide (p.1 = t.Conference)) <;> simp
    have hnone : ∀ p ∈ acc, p.1 ≠ t.Conference := by
      intro p hp
      have h2 := List.any_eq_false.mp hanyf p hp
      simpa using h2
    have hout : t.Conference ∉ acc.map Prod.fst := by
      intro hc
      rcases List.mem_map.mp hc with ⟨q, hq, hq1⟩
      exact hnone q hq hq1
    rw [addTeamToGroups, if_neg hmem]
    refine ⟨?_, ?_, ?_⟩
    · rw [List.map_append]
      rw [List.nodup_append]
      refine ⟨hnd, by simp, ?_⟩
      intro c hc hc2
      have hc3 : c = t.Conference := by simpa using hc2
      exact hout (hc3 ▸ hc)
    · intro c
      rw [List.map_append, List.map_append]
      simp only [List.mem_append]
      constructor
      · intro hc
        rcases hc with hc | hc
        · exact Or.inl ((hkeys c).mp hc)
        · exact Or.inr (by simpa using hc)
      · intro hc
        rcases hc with hc | hc
        · exact Or.inl ((hkeys c).mpr hc)
        · exact Or.inr (by simpa using hc)
    · intro q hq
      rcases List.mem_append.mp hq with hq | hq
      · have hne : q.1 ≠ t.Conference := hnone q hq
        have ht : [t].filter (fun u => decide (u.Conference = q.1)) = [] := by
          simp [List.filter_cons]
          exact fun h2 => hne h2.symm
        show q.2 =
          ((done ++ [t]).filter
            (fun u => decide (u.Conference = q.1))).map toGroupTeam
        rw [List.filter_append, ht, List.append_nil]
        exact hgrp q hq
      · have hq2 : q = (t.Conference, [toGroupTeam t]) := by simpa using hq
        subst hq2
        show [toGroupTeam t] =
          ((done ++ [t]).filter
            (fun u => decide (u.Conference = t.Conference))).map toGroupTeam
        have hdone : done.filter
            (fun u => decide (u.Conference = t.Conference)) = [] := by
          rw [List.filter_eq_nil_iff]
          intro u hu
          simp only [decide_eq_true_eq]
          intro heq
          have hmem2 : t.Conference ∈ done.map TeamsTable.Conference :=
            heq ▸ List.mem_map_of_mem TeamsTable.Conference hu
          exact hout ((hkeys t.Conference).mpr hmem2)
        have ht : [t].filter
            (fun u => decide (u.Conference = t.Conference)) = [t] := by
          simp
        rw [List.filter_append, hdone, List.nil_append, ht]
        rfl

/-- The reduce preserves the conference-grouping invariant along any
suffix of the input. -/
theorem groupsInv_fold (ts : List TeamsTable) :
    ∀ (done : List TeamsTable) (acc : List (String × List ConferenceGroupTeam)),
      GroupsInv done acc → GroupsInv (done ++ ts) (ts.foldl addTeamToGroups acc) := by
  induction ts with
  | nil =>
    intro done acc h
    simpa using h
  | cons t ts ih =>
    intro done acc h
    have h2 := ih (done ++ [t]) (addTeamToGroups acc t) (groupsInv_step done acc t h)
    simpa [List.append_assoc] using h2

/-- The grouped record of `fetchData` satisfies the invariant. -/
theorem groupsInv_groupedData (ts : List TeamsTable) :
    GroupsInv ts (groupedData ts) := by
  have h := groupsInv_fold ts [] [] ⟨by simp, by simp, by simp⟩
  simpa [groupedData] using h

/-- C9: the conference grouping of `ConferencePage.fetchData` is a
partition of the input teams — every output group holds exactly the input
teams whose `Conference` field equals its `ConferenceName`, in input
order; every input team lands in the group of its conference; no
conference name repeats across groups; and the groups come out sorted in
non-increasing order of team count. -/
theorem claimC9 (ts : List TeamsTable) :
    (∀ g ∈ conferenceArray ts,
      g.teams = (ts.filter
        (fun t => decide (t.Conference = g.ConferenceName))).map toGroupTeam) ∧
    (∀ t ∈ ts, ∃ g ∈ conferenceArray ts,
      g.ConferenceName = t.Conference ∧ toGroupTeam t ∈ g.teams) ∧
    ((conferenceArray ts).map ConferenceGroup.ConferenceName).Nodup ∧
    (conferenceArray ts).Pairwise (fun a b => b.teams.length ≤ a.teams.length) := by
  obtain ⟨hnd, hkeys, hgrp⟩ := groupsInv_groupedData ts
  have hperm : (conferenceArray ts).Perm
      ((groupedData ts).map (fun p => ConferenceGroup.mk p.1 p.2)) :=
    List.mergeSort_perm _ _
  refine ⟨?_, ?_, ?_, ?_⟩
  · intro g hg
    rcases List.mem_map.mp (hperm.mem_iff.mp hg) with ⟨p, hp, rfl⟩
    exact hgrp p hp
  · intro t ht
    have hc : t.Conference ∈ (groupedData ts).map Prod.fst :=
      (hkeys t.Conference).mpr (List.mem_map_of_mem TeamsTable.Conference ht)
    rcases List.mem_map.mp hc with ⟨p, hp, hfst⟩
    refine ⟨ConferenceGroup.mk p.1 p.2, ?_, hfst, ?_⟩
    · exact hperm.mem_iff.mpr
        (List.mem_map_of_mem (fun p => ConferenceGroup.mk p.1 p.2) hp)
    · have hteams : (ConferenceGroup.mk p.1 p.2).teams =
          (ts.filter (fun u => decide (u.Conference = p.1))).map toGroupTeam :=
        hgrp p hp
      rw [hteams]
      refine List.mem_map_of_mem toGroupTeam (List.mem_filter.mpr ⟨ht, ?_⟩)
      simp [hfst]
  · have hmapeq : ((groupedData ts).map
        (fun p => ConferenceGroup.mk p.1 p.2)).map ConferenceGroup.ConferenceName
        = (groupedData ts).map Prod.fst := by
      rw [List.map_map]
      rfl
    have hpm := hperm.map ConferenceGroup.ConferenceName
    rw [hmapeq] at hpm
    exact hpm.nodup_iff.mpr hnd
  · have htrans : ∀ a b c : ConferenceGroup,
        byTeamCountDesc a b → byTeamCountDesc b c → byTeamCountDesc a c := by
      intro a b c hab hbc
      simp only [byTeamCountDesc, decide_eq_true_eq] at hab hbc ⊢
      omega
    have htotal : ∀ a b : ConferenceGroup,
        byTeamCountDesc a b || byTeamCountDesc b a := by
      intro a b
      simp only [byTeamCountDesc]
      rcases Nat.le_total b.teams.length a.teams.length with h | h <;> simp [h]
    have hs := List.sorted_mergeSort htrans htotal
      ((groupedData ts).map (fun p => ConferenceGroup.mk p.1 p.2))
    refine List.Pairwise.imp ?_ hs
    intro a b hab
    simpa [byTeamCountDesc] using hab

/-- C9 witness: on the concrete three-team table, the team of the first
row lands in a group named by its conference that contains it. -/
theorem claimC9_witness :
    ∃ g ∈ conferenceArray demoTeams,
      g.ConferenceName = ("SEC") ∧
      toGroupTeam ⟨2025, "Auburn", "AUB_TIG", "SEC", "Tigers"⟩ ∈ g.teams := by
  have h := (claimC9 demoTeams).2.1
    ⟨2025, "Auburn", "AUB_TIG", "SEC", "Tigers"⟩ (by decide)
  simpa using h
